import Mathlib

set_option maxRecDepth 8000

/-!
Shallow embedding of the calculator engine of `src/claculator/src/components/Calculator.jsx`.

JavaScript numbers are IEEE-754 doubles.  We model them as the inductive type
`JSNum`: the special values `NaN`, `Infinity`, `-Infinity` plus exact rationals
for the finite values.  Two deliberate simplifications of double semantics,
both documented where they matter: (1) finite arithmetic is exact rational
arithmetic, not 53-bit rounding — every numeric value evaluated by a theorem
below is exactly representable, so the simplification is invisible there;
(2) there is no signed zero (`-0` is identified with `0`) and no overflow of
finite values to `Infinity`.

Strings are Lean `String`s; character-level operations of the source
(`slice`, `startsWith`, `includes`) are modelled on `String.toList`.
-/

/-- Model of a JavaScript number: NaN, the two infinities, or a finite value
(modelled as an exact rational; see the header comment). -/
inductive JSNum where
  | nan : JSNum
  | inf : JSNum
  | ninf : JSNum
  | fin : ℚ → JSNum
deriving DecidableEq, Repr

/-- JavaScript `+` on numbers (IEEE-754 special-value rules; exact on finite). -/
def jsAdd : JSNum → JSNum → JSNum
  | .nan, _ => .nan
  | _, .nan => .nan
  | .inf, .ninf => .nan
  | .ninf, .inf => .nan
  | .inf, _ => .inf
  | _, .inf => .inf
  | .ninf, _ => .ninf
  | _, .ninf => .ninf
  | .fin a, .fin b => .fin (a + b)

/-- JavaScript `-` on numbers. -/
def jsSub : JSNum → JSNum → JSNum
  | .nan, _ => .nan
  | _, .nan => .nan
  | .inf, .inf => .nan
  | .ninf, .ninf => .nan
  | .inf, _ => .inf
  | .ninf, _ => .ninf
  | _, .inf => .ninf
  | _, .ninf => .inf
  | .fin a, .fin b => .fin (a - b)

/-- JavaScript `*` on numbers (`Infinity * 0` is `NaN`). -/
def jsMul : JSNum → JSNum → JSNum
  | .nan, _ => .nan
  | _, .nan => .nan
  | .inf, .inf => .inf
  | .ninf, .ninf => .inf
  | .inf, .ninf => .ninf
  | .ninf, .inf => .ninf
  | .inf, .fin b => if 0 < b then .inf else if b < 0 then .ninf else .nan
  | .fin a, .inf => if 0 < a then .inf else if a < 0 then .ninf else .nan
  | .ninf, .fin b => if 0 < b then .ninf else if b < 0 then .inf else .nan
  | .fin a, .ninf => if 0 < a then .ninf else if a < 0 then .inf else .nan
  | .fin a, .fin b => .fin (a * b)

/-- JavaScript `/` on numbers (`x / 0` is `±Infinity` for `x ≠ 0`, `0 / 0` is
`NaN`, `Infinity / Infinity` is `NaN`, finite over infinite is `0`; the signed
zero of doubles is not modelled, so `Infinity / 0` is `Infinity`). -/
def jsDiv : JSNum → JSNum → JSNum
  | .nan, _ => .nan
  | _, .nan => .nan
  | .inf, .inf => .nan
  | .inf, .ninf => .nan
  | .ninf, .inf => .nan
  | .ninf, .ninf => .nan
  | .inf, .fin b => if b < 0 then .ninf else .inf
  | .ninf, .fin b => if b < 0 then .inf else .ninf
  | .fin _, .inf => .fin 0
  | .fin _, .ninf => .fin 0
  | .fin a, .fin b =>
      if b = 0 then (if 0 < a then .inf else if a < 0 then .ninf else .nan)
      else .fin (a / b)

/-- The character for a decimal digit value below ten. -/
def digitChar (d : ℕ) : Char := Char.ofNat (48 + d)

/-- Decimal digit characters of a natural number, most significant first,
computed with explicit fuel (`n + 1` steps always suffice).  Models the
integer part of JavaScript number-to-string conversion. -/
def natDigitsAux : ℕ → ℕ → List Char
  | 0, _ => []
  | fuel + 1, n =>
      if n < 10 then [digitChar n]
      else natDigitsAux fuel (n / 10) ++ [digitChar (n % 10)]

/-- Decimal digit characters of a natural number, most significant first. -/
def natDigits (n : ℕ) : List Char := natDigitsAux (n + 1) n

/-- The characters of the decimal numeral `m / 10^k` (for `k = 0` just the
digits of `m`; otherwise the digits with a decimal point inserted `k` places
from the right, zero-padded so the integer part is nonempty). -/
def natDecimalList (m k : ℕ) : List Char :=
  if k = 0 then natDigits m
  else
    let padded := List.replicate (k + 1 - (natDigits m).length) '0' ++ natDigits m
    padded.take (padded.length - k) ++ '.' :: padded.drop (padded.length - k)

/-- Multiplicity of `p` in `n`, computed with explicit fuel. -/
def multOf (p : ℕ) : ℕ → ℕ → ℕ
  | 0, _ => 0
  | fuel + 1, n =>
      if 2 ≤ p ∧ 2 ≤ n ∧ n % p = 0 then multOf p fuel (n / p) + 1 else 0

/-- Number of decimal places of a rational with terminating decimal
expansion: the larger of the multiplicities of `2` and `5` in the
denominator. -/
def ratExp10 (q : ℚ) : ℕ := max (multOf 2 q.den q.den) (multOf 5 q.den q.den)

/-- Whether the rational has a terminating decimal expansion (denominator of
the form `2^a * 5^b`). -/
def ratTerminating (q : ℚ) : Bool :=
  q.den / (2 ^ multOf 2 q.den q.den * 5 ^ multOf 5 q.den q.den) = 1

/-- Characters of JavaScript `String(q)` for a finite number.  For rationals
with a terminating decimal expansion this is the exact shortest decimal,
which is what JavaScript prints for the values arising in this development.
Rationals with non-terminating expansions only arise from operations whose
double rounding we do not model; for totality they are printed truncated to
17 decimal places (no theorem below evaluates the printer there).
Exponential output for very large or very small doubles is likewise outside
the modelled range. -/
def ratDecimalList (q : ℚ) : List Char :=
  (if q < 0 then ['-'] else []) ++
  (if ratTerminating |q| then
     natDecimalList (|q| * 10 ^ ratExp10 |q|).num.toNat (ratExp10 |q|)
   else
     natDecimalList (Rat.floor (|q| * 10 ^ 17)).toNat 17)

/-- JavaScript `String(x)` for a number `x` (template-literal interpolation
`${x}` uses the same conversion). -/
def numToString : JSNum → String
  | .nan => "NaN"
  | .inf => "Infinity"
  | .ninf => "-Infinity"
  | .fin q => String.mk (ratDecimalList q)

/-- Numeric value of a list of decimal digit characters. -/
def digitsVal (l : List Char) : ℕ :=
  l.foldl (fun acc c => acc * 10 + (c.toNat - 48)) 0

/-- Parses the mantissa part of a JavaScript numeric literal: `digits`,
`digits.`, `digits.digits`, or `.digits`; returns the value and the unread
rest, or `none` when no digits were read. -/
def jsParseMantissa (l : List Char) : Option (ℚ × List Char) :=
  let ip := l.takeWhile Char.isDigit
  let r1 := l.dropWhile Char.isDigit
  match r1 with
  | '.' :: r2 =>
      let fp := r2.takeWhile Char.isDigit
      let r3 := r2.dropWhile Char.isDigit
      if ip.isEmpty ∧ fp.isEmpty then none
      else some ((digitsVal ip : ℚ) + (digitsVal fp : ℚ) / 10 ^ fp.length, r3)
  | _ => if ip.isEmpty then none else some ((digitsVal ip : ℚ), r1)

/-- Applies an optional exponent suffix (`e`/`E`, optional sign, digits) to a
parsed mantissa, as JavaScript `parseFloat` does; an `e` not followed by
digits is not consumed. -/
def jsParseExponent (q : ℚ) (l : List Char) : ℚ :=
  match l with
  | [] => q
  | c :: rest =>
      if c = 'e' ∨ c = 'E' then
        let signAndRest : Bool × List Char :=
          match rest with
          | '+' :: r => (false, r)
          | '-' :: r => (true, r)
          | r => (false, r)
        let ed := signAndRest.2.takeWhile Char.isDigit
        if ed.isEmpty then q
        else if signAndRest.1 then q / 10 ^ digitsVal ed else q * 10 ^ digitsVal ed
      else q

/-- JavaScript `parseFloat`: skip leading whitespace, optional sign, then the
longest numeric prefix (`Infinity` or a decimal mantissa with optional
exponent); `NaN` when no prefix parses.  Overflow of huge literals to
`Infinity` is not modelled (see the header comment). -/
def parseFloat (s : String) : JSNum :=
  let l := s.toList.dropWhile Char.isWhitespace
  let signAndRest : Bool × List Char :=
    match l with
    | '+' :: r => (false, r)
    | '-' :: r => (true, r)
    | _ => (false, l)
  let neg := signAndRest.1
  let l2 := signAndRest.2
  if l2.take 8 = "Infinity".toList then (if neg then JSNum.ninf else JSNum.inf)
  else
    match jsParseMantissa l2 with
    | none => JSNum.nan
    | some qr =>
        let v := jsParseExponent qr.1 qr.2
        JSNum.fin (if neg then -v else v)

example : numToString (JSNum.fin 5) = "5" := by with_unfolding_all decide
example : numToString (JSNum.fin (-(1/2))) = "-0.5" := by with_unfolding_all decide
example : numToString (JSNum.fin (1/20)) = "0.05" := by with_unfolding_all decide
example : numToString (JSNum.fin 0) = "0" := by with_unfolding_all decide
example : numToString (JSNum.fin 1234) = "1234" := by with_unfolding_all decide
example : parseFloat "0" = JSNum.fin 0 := by with_unfolding_all decide
example : parseFloat "-" = JSNum.nan := by with_unfolding_all decide
example : parseFloat "0.5" = JSNum.fin (1/2) := by with_unfolding_all decide
example : parseFloat "Infinity" = JSNum.inf := by with_unfolding_all decide
example : parseFloat "-Infinity" = JSNum.ninf := by with_unfolding_all decide
example : parseFloat "NaN" = JSNum.nan := by with_unfolding_all decide
example : parseFloat "Infinity123" = JSNum.inf := by with_unfolding_all decide
example : parseFloat "5." = JSNum.fin 5 := by with_unfolding_all decide
example : parseFloat ".5" = JSNum.fin (1/2) := by with_unfolding_all decide
example : parseFloat "." = JSNum.nan := by with_unfolding_all decide
example : parseFloat "1e3" = JSNum.fin 1000 := by with_unfolding_all decide
example : jsDiv (JSNum.fin 5) (JSNum.fin 0) = JSNum.inf := by with_unfolding_all decide

/-- The four binary operators of the calculator (the strings `'+'`, `'-'`,
`'×'`, `'÷'` of `OPERATIONS` in the source). -/
inductive Op where
  | add : Op
  | sub : Op
  | mul : Op
  | div : Op
deriving DecidableEq, Repr

/-- The operator symbol interpolated into history lines (the string the
source stores in its `operation` variable). -/
def opSymbol : Op → String
  | .add => "+"
  | .sub => "-"
  | .mul => "×"
  | .div => "÷"

/-- Evaluates the `switch (operation)` of `performOperation` on the two
operands. -/
def applyOp : Op → JSNum → JSNum → JSNum
  | .add => jsAdd
  | .sub => jsSub
  | .mul => jsMul
  | .div => jsDiv

/-- The state of the `Calculator` component: the five `useState` variables. -/
structure CalcState where
  display : String
  previousValue : Option JSNum
  operation : Option Op
  waitingForOperand : Bool
  history : List String
deriving DecidableEq, Repr

/-- The initial state of the component. -/
def initState : CalcState :=
  { display := "0", previousValue := none, operation := none,
    waitingForOperand := false, history := [] }

/-- Models the JavaScript expression `previousValue || 0` of
`performOperation` (line 168): among numbers, `NaN`, `0` and `-0` are falsy,
so they are replaced by `0`; every other number is kept. -/
def jsFalsyOr0 : JSNum → JSNum
  | .nan => .fin 0
  | .fin q => if q = 0 then .fin 0 else .fin q
  | x => x

/-- Models `prev.slice(-4)`: the last four elements (all of them when there
are at most four). -/
def jsLast4 (l : List String) : List String := l.drop (l.length - 4)

/-- The history line `` `${currentValue} ${operation} ${inputValue} = ${newValue}` ``. -/
def historyLine (currentValue : JSNum) (op : Op) (inputValue newValue : JSNum) : String :=
  numToString currentValue ++ " " ++ opSymbol op ++ " " ++ numToString inputValue
    ++ " = " ++ numToString newValue

/-- Function `inputDigit` of the source: replace the display when waiting for an
operand, otherwise append (replacing a lone `"0"`). -/
def inputDigit (s : CalcState) (d : Fin 10) : CalcState :=
  if s.waitingForOperand then
    { s with display := String.mk (natDigits d.val), waitingForOperand := false }
  else
    { s with display :=
        if s.display = "0" then String.mk (natDigits d.val)
        else String.mk (s.display.toList ++ natDigits d.val) }

/-- Function `inputDot` of the source: `"0."` when waiting for an operand, otherwise
append a dot unless the display already includes one. -/
def inputDot (s : CalcState) : CalcState :=
  if s.waitingForOperand then
    { s with display := "0.", waitingForOperand := false }
  else if s.display.toList.contains '.' then s
  else { s with display := String.mk (s.display.toList ++ ['.']) }

/-- Function `clearAll` of the source. -/
def clearAll (s : CalcState) : CalcState :=
  { s with display := "0", previousValue := none, operation := none,
           waitingForOperand := false }

/-- Function `handleBackspace` of the source: drop the last character
(`display.slice(0, -1)`), collapsing an emptied display to `"0"`. -/
def handleBackspace (s : CalcState) : CalcState :=
  if s.waitingForOperand then s
  else
    let newValue := String.mk s.display.toList.dropLast
    { s with display := if newValue = "" then "0" else newValue }

/-- Function `toggleSign` of the source: strip a leading `'-'`
(`display.slice(1)`) or prepend one (`'-' + display`). -/
def toggleSign (s : CalcState) : CalcState :=
  if s.waitingForOperand then s
  else if s.display.toList.headD ' ' = '-' then
    { s with display := String.mk s.display.toList.tail }
  else
    { s with display := String.mk ('-' :: s.display.toList) }

/-- Function `inputPercent` of the source: `String(parseFloat(display) / 100)`. -/
def inputPercent (s : CalcState) : CalcState :=
  if s.waitingForOperand then s
  else { s with display := numToString (jsDiv (parseFloat s.display) (JSNum.fin 100)) }

/-- Function `performOperation` of the source.  When no previous value is stored the
parsed display becomes the previous value; otherwise, when an operation is
pending, it is evaluated on `previousValue || 0` and the parsed display, the
result replaces the previous value and the display, and a history line is
appended to the last four kept entries.  In all cases the calculator then
waits for a new operand with `nextOperation` pending. -/
def performOperation (s : CalcState) (nextOperation : Option Op) : CalcState :=
  let inputValue := parseFloat s.display
  match s.previousValue with
  | none =>
      { s with previousValue := some inputValue,
               waitingForOperand := true, operation := nextOperation }
  | some pv =>
      match s.operation with
      | none => { s with waitingForOperand := true, operation := nextOperation }
      | some op =>
          let currentValue := jsFalsyOr0 pv
          let newValue := applyOp op currentValue inputValue
          { s with previousValue := some newValue,
                   display := numToString newValue,
                   history := jsLast4 s.history ++
                     [historyLine currentValue op inputValue newValue],
                   waitingForOperand := true,
                   operation := nextOperation }

/-- Function `handleEquals` of the source: delegate to `performOperation(null)` only
when an operation is pending and an operand has been entered. -/
def handleEquals (s : CalcState) : CalcState :=
  match s.operation with
  | some _ => if s.waitingForOperand then s else performOperation s none
  | none => s

/-- The discrete user intents the UI layer feeds to the engine. -/
inductive CalcAction where
  | digitA (d : Fin 10) : CalcAction
  | dotA : CalcAction
  | clearA : CalcAction
  | backA : CalcAction
  | signA : CalcAction
  | percentA : CalcAction
  | opA (o : Op) : CalcAction
  | eqA : CalcAction

/-- One user action applied to a state. -/
def step (s : CalcState) : CalcAction → CalcState
  | .digitA d => inputDigit s d
  | .dotA => inputDot s
  | .clearA => clearAll s
  | .backA => handleBackspace s
  | .signA => toggleSign s
  | .percentA => inputPercent s
  | .opA o => performOperation s (some o)
  | .eqA => handleEquals s

/-- States reachable from the initial state by a sequence of user actions. -/
inductive Reachable : CalcState → Prop where
  | init : Reachable initState
  | next {s : CalcState} (h : Reachable s) (a : CalcAction) : Reachable (step s a)

example : (inputDigit initState 7).display = "7" := by with_unfolding_all decide
example : (toggleSign (inputDigit initState 5)).display = "-5" := by with_unfolding_all decide
example : (handleBackspace (toggleSign (inputDigit initState 5))).display = "-" := by
  with_unfolding_all decide
example : (toggleSign (handleBackspace (toggleSign (inputDigit initState 5)))).display = "" := by
  with_unfolding_all decide

/-- A JavaScript word character (`\w` of the regex in `formatNumber`):
ASCII letters, digits, or underscore. -/
def isWordChar (c : Char) : Bool := c.isAlphanum || c = '_'

/-- Length of the run of decimal digits at the head of the list. -/
def digitRunLength : List Char → ℕ
  | [] => 0
  | c :: cs => if c.isDigit then digitRunLength cs + 1 else 0

/-- One pass of the regex replace
`integerPart.replace(/\B(?=(\d{3})+(?!\d))/g, ',')`: the zero-width pattern
matches between two word characters (`\B`, with the left one tracked in
`prev`) when the digit run starting at the current character has positive
length divisible by three (the lookahead `(\d{3})+(?!\d)` succeeds exactly
there), and each match inserts a comma. -/
def insertCommasAux : Char → List Char → List Char
  | _, [] => []
  | prev, c :: rest =>
      if isWordChar prev ∧ c.isDigit ∧ 3 ≤ digitRunLength (c :: rest) ∧
          digitRunLength (c :: rest) % 3 = 0 then
        ',' :: c :: insertCommasAux c rest
      else c :: insertCommasAux c rest

/-- The full regex replace of `formatNumber` (at the start of the string
`\B` requires a non-word left context, so the scan starts from a virtual
non-word character). -/
def insertCommas (l : List Char) : List Char := insertCommasAux ' ' l

/-- Function `formatNumber` of the source: return the string untouched when it is
empty, a literal infinity, or `parseFloat` yields `NaN`; otherwise insert
thousands separators into the part before the first `'.'` and re-attach the
part after it when that part is nonempty (JavaScript destructuring
`const [integerPart, decimalPart] = numStr.split('.')` keeps only the first
two components, and `decimalPart ? ... : ...` treats both a missing and an
empty fraction as absent). -/
def formatNumber (numStr : String) : String :=
  if numStr = "" ∨ numStr = "Infinity" ∨ numStr = "-Infinity" ∨
      parseFloat numStr = JSNum.nan then
    numStr
  else
    let parts := numStr.splitOn "."
    let integerPart := parts.headD ""
    let formattedInteger := String.mk (insertCommas integerPart.toList)
    match parts[1]? with
    | some d => if d = "" then formattedInteger else formattedInteger ++ "." ++ d
    | none => formattedInteger

/-- Number of decimal points in a string. -/
def countDots (t : String) : ℕ := (t.toList.filter (fun c => c == '.')).length

/-- The display pattern claimed by the specification:
`-?\d+(\.\d+)?` (an optional minus, one or more digits, optionally a dot
followed by one or more digits), matched against the whole string. -/
def matchesSpecPattern (t : String) : Bool :=
  let l := match t.toList with
    | '-' :: r => r
    | l => l
  let ip := l.takeWhile Char.isDigit
  let rest := l.dropWhile Char.isDigit
  !ip.isEmpty &&
    (rest.isEmpty ||
      (rest.headD ' ' == '.' && !rest.tail.isEmpty && rest.tail.all Char.isDigit))

/-- The three special-value display strings of the specification. -/
def isSpecialStr (t : String) : Bool :=
  t == "NaN" || t == "Infinity" || t == "-Infinity"

example : formatNumber "1234567.5" = "1,234,567.5" := by with_unfolding_all decide
example : formatNumber "NaN" = "NaN" := by with_unfolding_all decide
example : formatNumber "Infinity123" = "Infinity,123" := by with_unfolding_all decide
example : matchesSpecPattern "-12.5" = true := by with_unfolding_all decide
example : matchesSpecPattern "0." = false := by with_unfolding_all decide
example : matchesSpecPattern "" = false := by with_unfolding_all decide

/-- The state after pressing `9`, `-`, `4`, `-` from the initial state. -/
def chainMidState : CalcState :=
  step (step (step (step initState (CalcAction.digitA 9)) (CalcAction.opA Op.sub))
    (CalcAction.digitA 4)) (CalcAction.opA Op.sub)

/-- The state after pressing `9`, `-`, `4`, `-`, `2`, `=` from the initial state. -/
def chainFinalState : CalcState :=
  step (step chainMidState (CalcAction.digitA 2)) CalcAction.eqA

/-- C5: pressing `9`, `-`, `4`, `-`, `2`, `=` from the initial state,
evaluated strictly left to right, stores `previousValue = 5` immediately
after the second `-` press and shows `"3"` after `=`. -/
theorem chain_left_to_right_subtraction :
    chainMidState.previousValue = some (JSNum.fin 5) ∧ chainFinalState.display = "3" := by
  with_unfolding_all decide

/-- C6: `clearAll` resets the display, the stored operand, the pending
operator and the waiting flag to their initial values and leaves the history
field of the state exactly as it was. -/
theorem clearAll_resets_but_keeps_history (s : CalcState) :
    clearAll s = { display := "0", previousValue := none, operation := none,
                   waitingForOperand := false, history := s.history } := rfl

/-- The state after pressing `5`, `÷`, `0`, `=` from the initial state. -/
def divZeroState : CalcState :=
  step (step (step (step initState (CalcAction.digitA 5)) (CalcAction.opA Op.div))
    (CalcAction.digitA 0)) CalcAction.eqA

/-- C8: pressing `5`, `÷`, `0`, `=` from the initial state shows
`"Infinity"`: division by zero is not special-cased and the IEEE-754
infinity propagates into the display string. -/
theorem div_by_zero_displays_infinity : divZeroState.display = "Infinity" := by
  with_unfolding_all decide

/-- The state after pressing `5`, `±`, `⌫` from the initial state: the
display is the lone minus sign. -/
def loneMinusState : CalcState :=
  step (step (step initState (CalcAction.digitA 5)) CalcAction.signA) CalcAction.backA

/-- C10: from the reachable state showing `-5` (digit `5` then sign toggle),
backspace leaves the lone string `"-"` (not `"0"`), and a following operator
press parses it as `NaN` and stores `NaN` as the previous value. -/
theorem backspace_leaves_lone_minus :
    loneMinusState.display = "-" ∧
    parseFloat loneMinusState.display = JSNum.nan ∧
    (performOperation loneMinusState (some Op.add)).previousValue = some JSNum.nan := by
  with_unfolding_all decide

/-- C7: `handleEquals` leaves the state unchanged unless an operator is
pending and a new operand has been entered, and in that case it delegates to
`performOperation` with `null`; in particular equals right after an operator
press (waiting flag set) changes nothing. -/
theorem equals_guarded_delegation (s : CalcState) :
    ((s.operation = none ∨ s.waitingForOperand = true) → handleEquals s = s) ∧
    (∀ o : Op, s.operation = some o → s.waitingForOperand = false →
      handleEquals s = performOperation s none) := by
  constructor
  · intro h
    unfold handleEquals
    rcases h with h | h
    · rw [h]
    · cases hop : s.operation with
      | none => rfl
      | some o => rw [h]; rfl
  · intro o ho hw
    unfold handleEquals
    rw [ho, hw]
    rfl

/-- Witness for C7 at concrete states: equals is inert right after an
operator press, and computes via `performOperation` once an operand is in. -/
theorem equals_guarded_delegation_witness :
    handleEquals { display := "5", previousValue := some (JSNum.fin 5),
                   operation := some Op.add, waitingForOperand := true, history := [] } =
      { display := "5", previousValue := some (JSNum.fin 5),
        operation := some Op.add, waitingForOperand := true, history := [] } ∧
    handleEquals { display := "4", previousValue := some (JSNum.fin 7),
                   operation := some Op.add, waitingForOperand := false, history := [] } =
      performOperation { display := "4", previousValue := some (JSNum.fin 7),
                         operation := some Op.add, waitingForOperand := false,
                         history := [] } none :=
  ⟨(equals_guarded_delegation _).1 (Or.inr rfl),
   (equals_guarded_delegation _).2 Op.add rfl rfl⟩

/-- C9: when the calculator is not waiting for a new operand and the display
already includes a decimal point, `inputDot` leaves the state unchanged, and
pressing the decimal point twice in a row always equals pressing it once. -/
theorem inputDot_idempotent (s : CalcState)
    (hw : s.waitingForOperand = false)
    (hd : s.display.toList.contains '.' = true) :
    inputDot s = s ∧ ∀ t : CalcState, inputDot (inputDot t) = inputDot t := by
  have hbase : ∀ t : CalcState, t.waitingForOperand = false →
      t.display.toList.contains '.' = true → inputDot t = t := by
    intro t hw' hd'
    unfold inputDot
    rw [hw', hd']
    simp
  refine ⟨hbase s hw hd, ?_⟩
  intro t
  apply hbase
  · unfold inputDot
    split
    · rfl
    · split
      · next h _ => simpa using h
      · next h _ => simpa using h
  · unfold inputDot
    split
    · show ("0." : String).toList.contains '.' = true
      decide
    · split
      · next _ hc => exact hc
      · show (String.mk (t.display.toList ++ ['.'])).toList.contains '.' = true
        simp [String.toList]

/-- A concrete mid-entry state whose display already has a decimal point. -/
def midEntryDotState : CalcState :=
  { display := "0.5", previousValue := none, operation := none,
    waitingForOperand := false, history := [] }

/-- Witness for C9 at concrete states: a second dot press on display `"0.5"`
changes nothing, and dot-dot from the initial state equals a single dot. -/
theorem inputDot_idempotent_witness :
    inputDot midEntryDotState = midEntryDotState ∧
    inputDot (inputDot initState) = inputDot initState := by
  constructor
  · exact (inputDot_idempotent midEntryDotState rfl (by decide)).1
  · exact (inputDot_idempotent midEntryDotState rfl (by decide)).2 initState

/-- Counterexample to C3: `"Infinity123"` is not a finite, parseable number
(its numeric parse is `Infinity`), yet `formatNumber` does not return it
unmodified — the guard only catches the exact strings `"Infinity"`,
`"-Infinity"` and `NaN`-parses, so digit grouping runs and yields
`"Infinity,123"`. -/
theorem formatNumber_modifies_nonfinite_string :
    parseFloat "Infinity123" = JSNum.inf ∧
    formatNumber "Infinity123" = "Infinity,123" ∧
    "Infinity,123" ≠ "Infinity123" := by
  with_unfolding_all decide

/-- C3 amended: for every string that is empty, a literal `"Infinity"` or
`"-Infinity"`, or whose `parseFloat` is `NaN` (which covers `"NaN"` and every
string with no parseable numeric prefix), `formatNumber` returns the string
unmodified with no digit grouping attempted. -/
theorem formatNumber_guard_returns_unchanged (t : String)
    (h : t = "" ∨ t = "Infinity" ∨ t = "-Infinity" ∨ parseFloat t = JSNum.nan) :
    formatNumber t = t := by
  unfold formatNumber
  rw [if_pos h]

/-- Witness for the amended C3 at the concrete input `"NaN"`. -/
theorem formatNumber_guard_returns_unchanged_witness : formatNumber "NaN" = "NaN" :=
  formatNumber_guard_returns_unchanged "NaN"
    (Or.inr (Or.inr (Or.inr (by with_unfolding_all decide))))

/-- The reachable state with a `NaN` previous value and a pending `+`:
press `5`, `±`, `⌫` (display `"-"`), then `+` (stores `NaN`), then `5`. -/
def nanPrevState : CalcState :=
  step (step loneMinusState (CalcAction.opA Op.add)) (CalcAction.digitA 5)

/-- Counterexample to C1: in the reachable state with `previousValue = NaN`,
pending `+` and display `"5"`, pressing equals does not compute
`combine(NaN, +, 5) = NaN` — the source's `previousValue || 0` replaces the
falsy `NaN` by `0`, so the result is `5` and the history line records `0`,
not the `NaN` previous value, as first operand. -/
theorem performOperation_nan_previous_counterexample :
    Reachable nanPrevState ∧
    nanPrevState.previousValue = some JSNum.nan ∧
    nanPrevState.operation = some Op.add ∧
    nanPrevState.display = "5" ∧
    applyOp Op.add JSNum.nan (parseFloat nanPrevState.display) = JSNum.nan ∧
    (performOperation nanPrevState none).previousValue ≠
      some (applyOp Op.add JSNum.nan (parseFloat nanPrevState.display)) ∧
    (performOperation nanPrevState none).history = ["0 + 5 = 5"] := by
  refine ⟨?_, ?_, ?_, ?_, ?_, ?_, ?_⟩
  · exact Reachable.next (Reachable.next (Reachable.next (Reachable.next
      (Reachable.next Reachable.init (CalcAction.digitA 5)) CalcAction.signA)
      CalcAction.backA) (CalcAction.opA Op.add)) (CalcAction.digitA 5)
  · with_unfolding_all decide
  · with_unfolding_all decide
  · with_unfolding_all decide
  · with_unfolding_all decide
  · with_unfolding_all decide
  · with_unfolding_all decide

/-- C1 amended: when the stored previous value is `Infinity` or `-Infinity`
(which are truthy, unlike `NaN`) and an operator is pending, `performOperation`
does combine the special value as an ordinary floating-point operand with the
parsed display, and the history line records the previous value itself as the
first operand. -/
theorem performOperation_infinite_previous (s : CalcState) (v : JSNum) (o : Op)
    (nextOp : Option Op) (hv : s.previousValue = some v)
    (hsp : v = JSNum.inf ∨ v = JSNum.ninf) (ho : s.operation = some o) :
    performOperation s nextOp =
      { s with
        previousValue := some (applyOp o v (parseFloat s.display)),
        display := numToString (applyOp o v (parseFloat s.display)),
        history := jsLast4 s.history ++
          [historyLine v o (parseFloat s.display) (applyOp o v (parseFloat s.display))],
        waitingForOperand := true,
        operation := nextOp } := by
  have hfo : jsFalsyOr0 v = v := by rcases hsp with rfl | rfl <;> rfl
  obtain ⟨d, pv, op, w, hist⟩ := s
  simp only at hv ho
  subst hv
  subst ho
  simp [performOperation, hfo]

/-- Witness for the amended C1: with previous value `Infinity`, pending `+`
and display `"5"`, equals yields `Infinity` and the history line
`"Infinity + 5 = Infinity"`. -/
theorem performOperation_infinite_previous_witness :
    performOperation { display := "5", previousValue := some JSNum.inf,
                       operation := some Op.add, waitingForOperand := false,
                       history := [] } none =
      { display := "Infinity", previousValue := some JSNum.inf, operation := none,
        waitingForOperand := true, history := ["Infinity + 5 = Infinity"] } := by
  have h := performOperation_infinite_previous
    { display := "5", previousValue := some JSNum.inf, operation := some Op.add,
      waitingForOperand := false, history := [] } JSNum.inf Op.add none rfl
    (Or.inl rfl) rfl
  refine h.trans ?_
  with_unfolding_all decide

/-- The digit characters emitted for values below ten are decimal digits. -/
theorem digitChar_isDigit (d : ℕ) (h : d < 10) : (digitChar d).isDigit = true := by
  interval_cases d <;> decide

/-- Every character produced by `natDigitsAux` is a decimal digit. -/
theorem natDigitsAux_digits (fuel : ℕ) :
    ∀ n : ℕ, ∀ c ∈ natDigitsAux fuel n, c.isDigit = true := by
  induction fuel with
  | zero => intro n c hc; simp [natDigitsAux] at hc
  | succ fuel ih =>
      intro n c hc
      unfold natDigitsAux at hc
      split at hc
      · next h =>
          simp only [List.mem_singleton] at hc
          subst hc
          exact digitChar_isDigit n h
      · next h =>
          rw [List.mem_append, List.mem_singleton] at hc
          rcases hc with hc | hc
          · exact ih (n / 10) c hc
          · subst hc
            exact digitChar_isDigit (n % 10) (Nat.mod_lt n (by omega))

/-- Every character produced by `natDigits` is a decimal digit. -/
theorem natDigits_digits (n : ℕ) : ∀ c ∈ natDigits n, c.isDigit = true :=
  natDigitsAux_digits (n + 1) n

/-- A decimal digit character is not the decimal point. -/
theorem isDigit_ne_dot {c : Char} (h : c.isDigit = true) : (c == '.') = false := by
  rcases eq_or_ne c '.' with rfl | hne
  · exact absurd h (by decide)
  · simpa using hne

/-- Lists of digit characters contain no decimal point. -/
theorem filter_dot_digits {l : List Char} (h : ∀ c ∈ l, c.isDigit = true) :
    l.filter (fun c => c == '.') = [] := by
  apply List.filter_eq_nil_iff.mpr
  intro c hc
  rw [isDigit_ne_dot (h c hc)]
  exact Bool.false_ne_true

/-- The decimal numeral of `m / 10^k` contains at most one decimal point. -/
theorem natDecimalList_dots (m k : ℕ) :
    ((natDecimalList m k).filter (fun c => c == '.')).length ≤ 1 := by
  unfold natDecimalList
  split
  · rw [filter_dot_digits (natDigits_digits m)]
    decide
  · have hpad : ∀ c ∈ List.replicate (k + 1 - (natDigits m).length) '0' ++ natDigits m,
        c.isDigit = true := by
      intro c hc
      rw [List.mem_append] at hc
      rcases hc with hc | hc
      · rw [List.eq_of_mem_replicate hc]; decide
      · exact natDigits_digits m c hc
    rw [List.filter_append, List.filter_cons]
    rw [filter_dot_digits (fun c hc => hpad c (List.take_subset _ _ hc))]
    rw [filter_dot_digits (fun c hc => hpad c (List.drop_subset _ _ hc))]
    simp

/-- The printed rational contains at most one decimal point. -/
theorem ratDecimalList_dots (q : ℚ) :
    ((ratDecimalList q).filter (fun c => c == '.')).length ≤ 1 := by
  unfold ratDecimalList
  rw [List.filter_append, List.length_append]
  have h1 : (((if q < 0 then ['-'] else []) : List Char).filter
      (fun c => c == '.')).length = 0 := by
    split <;> rfl
  rw [h1, Nat.zero_add]
  split
  · exact natDecimalList_dots _ _
  · exact natDecimalList_dots _ _

/-- Any string produced by the number printer has at most one decimal point. -/
theorem countDots_numToString (x : JSNum) : countDots (numToString x) ≤ 1 := by
  cases x with
  | nan => decide
  | inf => decide
  | ninf => decide
  | fin q => exact ratDecimalList_dots q

/-- Strings made of digit characters contain no decimal point. -/
theorem countDots_digits_zero (l : List Char) (h : ∀ c ∈ l, c.isDigit = true) :
    countDots (String.mk l) = 0 := by
  show (l.filter (fun c => c == '.')).length = 0
  rw [filter_dot_digits h]
  rfl

/-- Dot count distributes over character-list concatenation. -/
theorem countDots_mk_append (l1 l2 : List Char) :
    countDots (String.mk (l1 ++ l2)) =
      (l1.filter (fun c => c == '.')).length + (l2.filter (fun c => c == '.')).length := by
  show ((l1 ++ l2).filter _).length = _
  rw [List.filter_append, List.length_append]

/-- Function `performOperation` either keeps the display or replaces it by a printed
number. -/
theorem performOperation_display_cases (s : CalcState) (n : Option Op) :
    (performOperation s n).display = s.display ∨
    ∃ x : JSNum, (performOperation s n).display = numToString x := by
  obtain ⟨d, pv, op, w, hist⟩ := s
  cases pv with
  | none => exact Or.inl rfl
  | some v =>
      cases op with
      | none => exact Or.inl rfl
      | some o => exact Or.inr ⟨_, rfl⟩

/-- Function `performOperation` either keeps the history or appends one line to the
last four kept entries. -/
theorem performOperation_history_cases (s : CalcState) (n : Option Op) :
    (performOperation s n).history = s.history ∨
    ∃ e : String, (performOperation s n).history = jsLast4 s.history ++ [e] := by
  obtain ⟨d, pv, op, w, hist⟩ := s
  cases pv with
  | none => exact Or.inl rfl
  | some v =>
      cases op with
      | none => exact Or.inl rfl
      | some o => exact Or.inr ⟨_, rfl⟩

/-- Every single user action preserves "the display has at most one decimal
point". -/
theorem countDots_step (s : CalcState) (a : CalcAction) (h : countDots s.display ≤ 1) :
    countDots (step s a).display ≤ 1 := by
  have hperf : ∀ n : Option Op, countDots (performOperation s n).display ≤ 1 := by
    intro n
    rcases performOperation_display_cases s n with hd | ⟨x, hd⟩
    · rw [hd]; exact h
    · rw [hd]; exact countDots_numToString x
  cases a with
  | digitA d =>
      show countDots (inputDigit s d).display ≤ 1
      unfold inputDigit
      split
      · show countDots (String.mk (natDigits d.val)) ≤ 1
        rw [countDots_digits_zero _ (natDigits_digits _)]
        exact Nat.zero_le 1
      · split
        · show countDots (String.mk (natDigits d.val)) ≤ 1
          rw [countDots_digits_zero _ (natDigits_digits _)]
          exact Nat.zero_le 1
        · show countDots (String.mk (s.display.toList ++ natDigits d.val)) ≤ 1
          rw [countDots_mk_append, filter_dot_digits (natDigits_digits _)]
          simpa [countDots] using h
  | dotA =>
      show countDots (inputDot s).display ≤ 1
      unfold inputDot
      split
      · show countDots ("0." : String) ≤ 1
        decide
      · split
        · exact h
        · next hw hc =>
            have hmem : ('.' : Char) ∉ s.display.toList := by simpa using hc
            show countDots (String.mk (s.display.toList ++ ['.'])) ≤ 1
            rw [countDots_mk_append]
            have h0 : s.display.toList.filter (fun c => c == '.') = [] := by
              apply List.filter_eq_nil_iff.mpr
              intro c hcm hcd
              exact hmem (by rwa [show c = '.' from by simpa using hcd] at hcm)
            rw [h0]
            decide
  | clearA =>
      show countDots ("0" : String) ≤ 1
      decide
  | backA =>
      show countDots (handleBackspace s).display ≤ 1
      unfold handleBackspace
      split
      · exact h
      · show countDots (if String.mk s.display.toList.dropLast = "" then ("0" : String)
          else String.mk s.display.toList.dropLast) ≤ 1
        split
        · show countDots ("0" : String) ≤ 1
          decide
        · show countDots (String.mk s.display.toList.dropLast) ≤ 1
          calc (s.display.toList.dropLast.filter (fun c => c == '.')).length
              ≤ (s.display.toList.filter (fun c => c == '.')).length :=
                ((List.dropLast_sublist _).filter _).length_le
            _ ≤ 1 := h
  | signA =>
      show countDots (toggleSign s).display ≤ 1
      unfold toggleSign
      split
      · exact h
      · split
        · show countDots (String.mk s.display.toList.tail) ≤ 1
          calc (s.display.toList.tail.filter (fun c => c == '.')).length
              ≤ (s.display.toList.filter (fun c => c == '.')).length :=
                ((List.tail_sublist _).filter _).length_le
            _ ≤ 1 := h
        · show countDots (String.mk ('-' :: s.display.toList)) ≤ 1
          show ((('-' :: s.display.toList).filter (fun c => c == '.')).length) ≤ 1
          rw [List.filter_cons, if_neg (by decide : ¬ ((('-' : Char) == '.') = true))]
          exact h
  | percentA =>
      show countDots (inputPercent s).display ≤ 1
      unfold inputPercent
      split
      · exact h
      · exact countDots_numToString _
  | opA o => exact hperf (some o)
  | eqA =>
      show countDots (handleEquals s).display ≤ 1
      unfold handleEquals
      split
      · split
        · exact h
        · exact hperf none
      · exact h

/-- Every single user action keeps the history at five entries or fewer. -/
theorem history_le5_step (s : CalcState) (a : CalcAction) (h : s.history.length ≤ 5) :
    (step s a).history.length ≤ 5 := by
  have hperf : ∀ n : Option Op, (performOperation s n).history.length ≤ 5 := by
    intro n
    rcases performOperation_history_cases s n with he | ⟨e, he⟩
    · rw [he]; exact h
    · rw [he, List.length_append]
      have h4 : (jsLast4 s.history).length ≤ 4 := by
        unfold jsLast4
        rw [List.length_drop]
        omega
      simp only [List.length_singleton]
      omega
  cases a with
  | digitA d =>
      show (inputDigit s d).history.length ≤ 5
      unfold inputDigit
      split
      · exact h
      · exact h
  | dotA =>
      show (inputDot s).history.length ≤ 5
      unfold inputDot
      split
      · exact h
      · split
        · exact h
        · exact h
  | clearA => exact h
  | backA =>
      show (handleBackspace s).history.length ≤ 5
      unfold handleBackspace
      split
      · exact h
      · exact h
  | signA =>
      show (toggleSign s).history.length ≤ 5
      unfold toggleSign
      split
      · exact h
      · split
        · exact h
        · exact h
  | percentA =>
      show (inputPercent s).history.length ≤ 5
      unfold inputPercent
      split
      · exact h
      · exact h
  | opA o => exact hperf (some o)
  | eqA =>
      show (handleEquals s).history.length ≤ 5
      unfold handleEquals
      split
      · split
        · exact h
        · exact hperf none
      · exact h

/-- The state reached by pressing `5`, `±`, `⌫`, `±` from the initial state:
backspace on `"-5"` leaves `"-"`, and the sign toggle then strips the lone
minus, leaving the empty display. -/
def emptyDisplayState : CalcState :=
  step (step (step (step initState (CalcAction.digitA 5)) CalcAction.signA)
    CalcAction.backA) CalcAction.signA

/-- Counterexample to C2: the reachable state after `5`, `±`, `⌫`, `±` has
the empty string as display, which neither matches `-?\d+(\.\d+)?` nor is a
special value string — so the claimed display-shape invariant fails (and so
does "never the empty string"). -/
theorem display_shape_counterexample :
    Reachable emptyDisplayState ∧
    emptyDisplayState.display = "" ∧
    matchesSpecPattern emptyDisplayState.display = false ∧
    isSpecialStr emptyDisplayState.display = false := by
  refine ⟨?_, ?_, ?_, ?_⟩
  · exact Reachable.next (Reachable.next (Reachable.next (Reachable.next
      Reachable.init (CalcAction.digitA 5)) CalcAction.signA) CalcAction.backA)
      CalcAction.signA
  · with_unfolding_all decide
  · with_unfolding_all decide
  · with_unfolding_all decide

/-- C2 amended: in every reachable state the display contains at most one
decimal point (the remaining part of the claimed invariant: the shape
pattern and non-emptiness are refuted by `display_shape_counterexample`). -/
theorem display_at_most_one_dot (s : CalcState) (h : Reachable s) :
    countDots s.display ≤ 1 := by
  induction h with
  | init => decide
  | next h a ih => exact countDots_step _ a ih

/-- Witness for the amended C2 at the initial state. -/
theorem display_at_most_one_dot_witness : countDots initState.display ≤ 1 :=
  display_at_most_one_dot initState Reachable.init

/-- The state after `1`, `+`, `1`, `+`, `1`, `+`, `1`, `+`, `1`, `+`, `1`,
`+`, `1`, `=` from the initial state: six completed additions. -/
def sixOpsState : CalcState :=
  List.foldl step initState
    [CalcAction.digitA 1, CalcAction.opA Op.add, CalcAction.digitA 1,
     CalcAction.opA Op.add, CalcAction.digitA 1, CalcAction.opA Op.add,
     CalcAction.digitA 1, CalcAction.opA Op.add, CalcAction.digitA 1,
     CalcAction.opA Op.add, CalcAction.digitA 1, CalcAction.opA Op.add,
     CalcAction.digitA 1, CalcAction.eqA]

/-- C4: the history of every reachable state has at most five entries, and
eviction is first-in-first-out: after six completed additions the oldest
line `"1 + 1 = 2"` is gone and the five most recent lines remain in
insertion order. -/
theorem history_capped_fifo :
    (∀ s : CalcState, Reachable s → s.history.length ≤ 5) ∧
    sixOpsState.history =
      ["2 + 1 = 3", "3 + 1 = 4", "4 + 1 = 5", "5 + 1 = 6", "6 + 1 = 7"] ∧
    "1 + 1 = 2" ∉ sixOpsState.history := by
  refine ⟨?_, ?_, ?_⟩
  · intro s h
    induction h with
    | init => decide
    | next h a ih => exact history_le5_step _ a ih
  · with_unfolding_all decide
  · with_unfolding_all decide

/-- Witness for C4 at the initial state (empty history). -/
theorem history_capped_fifo_witness : initState.history.length ≤ 5 :=
  history_capped_fifo.1 initState Reachable.init

/-- A concrete mid-computation state used to witness the clear-all frame
property. -/
def clearWitnessState : CalcState :=
  { display := "9", previousValue := some (JSNum.fin 9), operation := some Op.mul,
    waitingForOperand := true, history := ["7 + 2 = 9"] }

/-- Witness for C6 at a concrete mid-computation state: clearing resets the
four working fields and keeps the history line. -/
theorem clearAll_resets_but_keeps_history_witness :
    clearAll clearWitnessState =
      { display := "0", previousValue := none, operation := none,
        waitingForOperand := false, history := ["7 + 2 = 9"] } :=
  clearAll_resets_but_keeps_history clearWitnessState
